import Mathlib

/-!
Verification of the Stackable `integration-test-commons` repository.

The Rust sources are embedded shallowly:

* Kubernetes objects (`Pod`, `CustomResourceDefinition`, generic resources)
  become Lean structures carrying exactly the fields the library reads.
* The synchronous busy-wait loops of `TestCluster` (`wait_ready`,
  `wait_for_pods_terminated`) become structurally recursive functions over a
  "remaining seconds" counter.  The Rust loops guard on
  `now.elapsed().as_secs() < timeout.as_secs()` and sleep a fixed number of
  seconds per iteration, so elapsed time advances by that fixed amount per
  iteration; the counter carries `timeout - elapsed` and is decremented by the
  sleep amount, which renders the same guard structurally.
* The environment (what the Kubernetes API server answers) is passed in
  explicitly: a function `polls : Nat → List Pod` gives the pod list returned
  by the i-th `list` call, `Except` values give the outcomes of single API
  calls, and lists of watch events give what a bounded watch stream delivers
  before its server-side timeout ends the stream.
* Rust panics (the `expect` calls of `TestKubeClient`) are a distinct
  `RunResult.panicked` outcome, separate from returned `Err` values.
* The side effects the library performs (establishing a watch, issuing the
  mutating API calls, printing) are recorded as an `Action` trace in source
  order, so ordering claims are statements about traces.
-/

namespace ITC

/-- Outcome of a Rust function that may return `Ok`, return `Err`, or panic
(via `expect`/`unwrap`). -/
inductive RunResult (α : Type) where
  | ok (a : α)
  | err (msg : String)
  | panicked (msg : String)
  deriving DecidableEq, Repr

/-- Observable side effects, in source order: watch establishment, the
mutating or reading API calls, and console output. -/
inductive Action where
  | watch (fieldSelector : String)
  | patchApply (name : String)
  | getResource (name : String)
  | createRes (name : String)
  | deleteRes (name : String)
  | getStatusOf (name : String)
  | println (msg : String)
  deriving DecidableEq, Repr

/-- Watch events delivered by a bounded watch stream
(`kube::api::WatchEvent`); the end of the list models the server-side
timeout ending the stream. -/
inductive WEvent (K : Type) where
  | added (k : K)
  | modified (k : K)
  | deleted (k : K)
  | bookmark
  deriving DecidableEq, Repr

/-- `PodCondition` of `k8s_openapi`: the two fields the library reads. -/
structure PodCondition where
  type_ : String
  status : String
  deriving DecidableEq, Repr

/-- `PodStatus` restricted to the field the library reads. -/
structure PodStatus where
  conditions : Option (List PodCondition)
  deriving DecidableEq, Repr

/-- A pod, restricted to the fields the library reads. -/
structure Pod where
  name : String
  status : Option PodStatus
  deriving DecidableEq, Repr

/-- `get_pod_conditions` from `src/test/kube.rs`. -/
def getPodConditions (pod : Pod) : List PodCondition :=
  match pod.status with
  | some status => status.conditions.getD []
  | none => []

/-- `CustomResourceDefinitionCondition`: the two fields the library reads. -/
structure CRDCondition where
  type_ : String
  status : String
  deriving DecidableEq, Repr

/-- CRD status restricted to the field the library reads. -/
structure CRDStatus where
  conditions : Option (List CRDCondition)
  deriving DecidableEq, Repr

/-- A custom resource definition, restricted to the fields the library
reads. -/
structure CRD where
  name : String
  status : Option CRDStatus
  deriving DecidableEq, Repr

/-- `get_crd_conditions` from `src/test/kube.rs`. -/
def getCrdConditions (crd : CRD) : List CRDCondition :=
  match crd.status with
  | some status => status.conditions.getD []
  | none => []

/-- A generic named resource (the `Resource` trait surface the library
uses: `name()`). -/
structure Res where
  name : String
  deriving DecidableEq, Repr

/-- `TestCluster::log`: `format!("[{}/{}] {}", T::kind(&()), self.name(), message)`. -/
def logMsg (kind instName message : String) : String :=
  "[" ++ kind ++ "/" ++ instName ++ "] " ++ message

/-- The timeout error message of `TestCluster::wait_for_pods_terminated`. -/
def termTimeoutMsg (kind instName : String) (timeoutSecs : Nat) : String :=
  logMsg kind instName
    ("Pods did not terminate within the specified timeout of " ++
      Nat.repr timeoutSecs ++ " second(s)")

/-- The per-iteration console message of `wait_for_pods_terminated`. -/
def termWaitingMsg (kind instName : String) (podCount : Nat) : String :=
  logMsg kind instName
    ("Waiting for " ++ Nat.repr podCount ++ " Pod(s) to terminate")

/-- The loop of `TestCluster::wait_for_pods_terminated`.  `remaining` is
`timeout - elapsed` in seconds (the loop guard `elapsed < timeout` is
`0 < remaining`); each iteration sleeps one second, so `remaining`
decreases by one; `i` counts iterations and `polls i` is the pod list the
i-th `list` call returns. -/
def waitTermAux (kind instName : String) (timeoutSecs : Nat)
    (polls : Nat → List Pod) : Nat → Nat → RunResult Unit × List Action
  | 0, _ =>
    (.err (termTimeoutMsg kind instName timeoutSecs), [])
  | Nat.succ remaining, i =>
    let pods := polls i
    if pods.isEmpty then
      (.ok (), [])
    else
      let rest := waitTermAux kind instName timeoutSecs polls remaining (i + 1)
      (rest.1, .println (termWaitingMsg kind instName pods.length) :: rest.2)

/-- `TestCluster::wait_for_pods_terminated` from `src/operator/setup.rs`. -/
def waitForPodsTerminated (kind instName : String) (timeoutSecs : Nat)
    (polls : Nat → List Pod) : RunResult Unit × List Action :=
  waitTermAux kind instName timeoutSecs polls timeoutSecs 0

/-- Scan the watch stream of `KubeClient::verify_status`: the loop keeps only
`WatchEvent::Modified` events and returns the first modified resource that
satisfies the predicate. -/
def scanModified {K : Type} (pred : K → Bool) : List (WEvent K) → Option K
  | [] => none
  | .modified k :: rest => if pred k then some k else scanModified pred rest
  | _ :: rest => scanModified pred rest

/-- `KubeClient::verify_status` from `src/test/kube.rs`.  The watch stream is
established first (its events are `events`), then `get_status` is issued
(its outcome is `getStatusRes`); the fetched resource is checked against the
predicate before the event loop runs.  The error message uses the fetched
resource's name and the `verify_status` timeout. -/
def verifyStatus {K : Type} (nameOf : K → String) (timeoutSecs : Nat)
    (pred : K → Bool) (getStatusRes : Except String K)
    (events : List (WEvent K)) : Except String K :=
  match getStatusRes with
  | .error e => .error e
  | .ok fetched =>
    if pred fetched then .ok fetched
    else
      match scanModified pred events with
      | some k => .ok k
      | none =>
        .error ("Resource [" ++ nameOf fetched ++
          "] did not reach the expected status within " ++
          Nat.repr timeoutSecs ++ " seconds.")

/-- The predicate of `KubeClient::verify_pod_condition`: some condition of
the pod has the given type and status `"True"`. -/
def podConditionTrue (conditionType : String) (pod : Pod) : Bool :=
  (getPodConditions pod).any
    (fun condition => condition.type_ == conditionType && condition.status == "True")

/-- `KubeClient::verify_pod_condition` from `src/test/kube.rs`. -/
def verifyPodCondition (timeoutSecs : Nat) (conditionType : String)
    (getStatusRes : Except String Pod) (events : List (WEvent Pod)) :
    Except String Pod :=
  verifyStatus Pod.name timeoutSecs (podConditionTrue conditionType) getStatusRes events

/-- `TestKubeClient::verify_pod_condition`: the synchronous wrapper panics on
an erroneous result (`expect("Pod condition could not be verified")`). -/
def tkVerifyPodCondition (timeoutSecs : Nat) (conditionType : String)
    (getStatusRes : Except String Pod) (events : List (WEvent Pod)) :
    RunResult Pod :=
  match verifyPodCondition timeoutSecs conditionType getStatusRes events with
  | .ok pod => .ok pod
  | .error _ => .panicked "Pod condition could not be verified"

/-- The timeout error message of `TestCluster::wait_ready`. -/
def readyTimeoutMsg (kind instName : String) (timeoutSecs : Nat) : String :=
  logMsg kind instName
    ("Cluster did not startup within the specified timeout of " ++
      Nat.repr timeoutSecs ++ " second(s)")

/-- The `for pod in created_pods { self.client.verify_pod_condition(pod, "Ready") }`
loop of `wait_ready`: verify the pods in order; the first failing
verification panics (via `TestKubeClient`). -/
def runVerifyPods (verifyTimeout : Nat) (statusOf : Pod → Except String Pod)
    (eventsOf : Pod → List (WEvent Pod)) : List Pod → RunResult Unit
  | [] => .ok ()
  | pod :: rest =>
    match tkVerifyPodCondition verifyTimeout "Ready" (statusOf pod) (eventsOf pod) with
    | .ok _ => runVerifyPods verifyTimeout statusOf eventsOf rest
    | .panicked msg => .panicked msg
    | .err msg => .err msg

/-- The loop of `TestCluster::wait_ready`.  `remaining` is
`timeout - elapsed` in seconds (the guard `elapsed < timeout` is
`0 < remaining`); a count-mismatch iteration sleeps two seconds, so
`remaining` decreases by two; `i` counts iterations and `polls i` is the pod
list the i-th `list` call returns.  When the count matches, every listed pod
is verified for the `"Ready"` condition via the panicking client wrapper. -/
def waitReadyAux (kind instName : String) (timeoutSecs expectedPodCount : Nat)
    (polls : Nat → List Pod) (verifyTimeout : Nat)
    (statusOf : Pod → Except String Pod) (eventsOf : Pod → List (WEvent Pod)) :
    Nat → Nat → RunResult Unit
  | 0, _ => .err (readyTimeoutMsg kind instName timeoutSecs)
  | Nat.succ remaining, i =>
    let pods := polls i
    if pods.length ≠ expectedPodCount then
      match remaining with
      | 0 => .err (readyTimeoutMsg kind instName timeoutSecs)
      | Nat.succ remaining' =>
        waitReadyAux kind instName timeoutSecs expectedPodCount polls
          verifyTimeout statusOf eventsOf remaining' (i + 1)
    else
      runVerifyPods verifyTimeout statusOf eventsOf pods

/-- `TestCluster::wait_ready` from `src/operator/setup.rs`. -/
def waitReady (kind instName : String) (timeoutSecs expectedPodCount : Nat)
    (polls : Nat → List Pod) (verifyTimeout : Nat)
    (statusOf : Pod → Except String Pod) (eventsOf : Pod → List (WEvent Pod)) :
    RunResult Unit :=
  waitReadyAux kind instName timeoutSecs expectedPodCount polls
    verifyTimeout statusOf eventsOf timeoutSecs 0

/-- The readiness predicate of `KubeClient::apply_crd`: some condition has
type `"NamesAccepted"` and status `"True"`. -/
def crdNamesAccepted (crd : CRD) : Bool :=
  (getCrdConditions crd).any
    (fun condition => condition.type_ == "NamesAccepted" && condition.status == "True")

/-- Scan the watch stream of `apply_crd` for a `Modified` CRD that is ready. -/
def scanCrdReady (events : List (WEvent CRD)) : Option CRD :=
  scanModified crdNamesAccepted events

/-- `KubeClient::apply_crd` from `src/test/kube.rs`.  In source order: the
watch on `metadata.name=<crd name>` is established, the server-side apply
(patch) is issued (`patchRes` is its outcome), the CRD is fetched
(`getOk` tells whether `crds.get` succeeded) and a success short-circuits,
otherwise `Modified` events are scanned for the accepted condition until the
stream ends at the timeout. -/
def applyCrd (crd : CRD) (timeoutSecs : Nat) (patchRes : Except String Unit)
    (getOk : Bool) (events : List (WEvent CRD)) :
    Except String Unit × List Action :=
  let watchAct := Action.watch ("metadata.name=" ++ crd.name)
  match patchRes with
  | .error e => (.error e, [watchAct, .patchApply crd.name])
  | .ok () =>
    let trace := [watchAct, .patchApply crd.name, .getResource crd.name]
    if getOk then (.ok (), trace)
    else
      match scanCrdReady events with
      | some _ => (.ok (), trace)
      | none =>
        (.error ("Custom resource definition [" ++ crd.name ++
          "] could not be applied within " ++ Nat.repr timeoutSecs ++ " seconds."),
         trace)

/-- Scan the watch stream of `KubeClient::create` for the first `Added`
event. -/
def scanAdded {K : Type} : List (WEvent K) → Option K
  | [] => none
  | .added k :: _ => some k
  | _ :: rest => scanAdded rest

/-- `KubeClient::create` from `src/test/kube.rs`.  In source order: the watch
on `metadata.name=<resource name>` is established, the create call is issued
(`createRes` is its outcome), then the stream is scanned for the `Added`
event until it ends at the timeout. -/
def createOp (resource : Res) (timeoutSecs : Nat) (createRes : Except String Unit)
    (events : List (WEvent Res)) : Except String Res × List Action :=
  let trace := [Action.watch ("metadata.name=" ++ resource.name),
                Action.createRes resource.name]
  match createRes with
  | .error e => (.error e, trace)
  | .ok () =>
    match scanAdded events with
    | some added => (.ok added, trace)
    | none =>
      (.error ("Resource [" ++ resource.name ++ "] could not be created within " ++
        Nat.repr timeoutSecs ++ " seconds."), trace)

/-- Scan the watch stream of `KubeClient::delete` for the first `Deleted`
event. -/
def scanDeleted {K : Type} : List (WEvent K) → Bool
  | [] => false
  | .deleted _ :: _ => true
  | _ :: rest => scanDeleted rest

/-- Outcome of the delete API call of `KubeClient::delete`: an error, or a
success whose `is_right()` tells whether the server reported the deletion as
already completed. -/
inductive DeleteApiRes where
  | apiError (msg : String)
  | completedImmediately
  | inProgress
  deriving DecidableEq, Repr

/-- `KubeClient::delete` from `src/test/kube.rs`.  In source order: the watch
on `metadata.name=<resource name>` is established, the delete call is issued,
an immediately-completed deletion short-circuits, otherwise the stream is
scanned for a `Deleted` event until it ends at the timeout. -/
def deleteOp (resource : Res) (timeoutSecs : Nat) (deleteRes : DeleteApiRes)
    (events : List (WEvent Res)) : Except String Unit × List Action :=
  let trace := [Action.watch ("metadata.name=" ++ resource.name),
                Action.deleteRes resource.name]
  match deleteRes with
  | .apiError e => (.error e, trace)
  | .completedImmediately => (.ok (), trace)
  | .inProgress =>
    if scanDeleted events then (.ok (), trace)
    else
      (.error ("Resource [" ++ resource.name ++ "] could not be deleted within " ++
        Nat.repr timeoutSecs ++ " seconds."), trace)

/-- `TestKubeClient::delete`: the synchronous wrapper panics on an erroneous
result (`expect("Resource could not be deleted")`). -/
def tkDelete (resource : Res) (timeoutSecs : Nat) (deleteRes : DeleteApiRes)
    (events : List (WEvent Res)) : RunResult Unit × List Action :=
  match deleteOp resource timeoutSecs deleteRes events with
  | (.ok (), trace) => (.ok (), trace)
  | (.error _, trace) => (.panicked "Resource could not be deleted", trace)

/-- API errors a `get` may fail with (`kube::Error`); absence of the resource
is itself an error variant (`notFound`). -/
inductive ApiError where
  | notFound
  | permissionDenied
  | connectionFailure
  | decodeFailure
  | other (msg : String)
  deriving DecidableEq, Repr

/-- `KubeClient::find` from `src/test/kube.rs`: `api.get(name).await.ok()`. -/
def findRes {K : Type} (getRes : Except ApiError K) : Option K :=
  match getRes with
  | .ok k => some k
  | .error _ => none

/-- `KubeClient::find_namespaced` from `src/test/kube.rs`:
`api.get(name).await.ok()` on the namespaced API. -/
def findNamespaced {K : Type} (namespace_ : String) (getRes : Except ApiError K) :
    Option K :=
  match getRes with
  | .ok k => some k
  | .error _ => none

/-- `MAX_INSTANCE_NAME_LEN` from `src/operator/setup.rs`. -/
def MAX_INSTANCE_NAME_LEN : Nat := 63

/-- `max_len` of `TestClusterOptions::new`:
`MAX_INSTANCE_NAME_LEN - uid.len() - 1`. -/
def maxLenFor (uid : String) : Nat :=
  MAX_INSTANCE_NAME_LEN - uid.length - 1

/-- `adapted_name` of `TestClusterOptions::new`: the base name, cut to
`max_len - 1` characters when it is longer than `max_len`.  Rust slices the
string by bytes; Kubernetes resource names are ASCII, so characters model
bytes faithfully here. -/
def adaptedName (base uid : String) : String :=
  if base.length > maxLenFor uid then String.mk (base.data.take (maxLenFor uid - 1))
  else base

/-- The `instance_name` field produced by `TestClusterOptions::new`:
`format!("{}-{}", adapted_name, uid)`, where `uid` is the decimal rendering
of the first `u32` field of a fresh UUID. -/
def instanceName (base uid : String) : String :=
  adaptedName base uid ++ "-" ++ uid

/-- The cluster field of a `TestCluster` as set by `TestCluster::new`:
`cluster: None`. -/
def tcNewCluster : Option Res := none

/-- `TestCluster::apply` acting on the `cluster` field.  `yamlRes` is the
outcome of `serde_yaml::to_string(cluster)` (an `Err` propagates via `?`
before the field is assigned); `applyOk` tells whether the panicking client
apply succeeded (a panic unwinds before the field is assigned); `applied` is
the resource the client apply returned. -/
def tcApply (current : Option Res) (yamlRes : Except String String)
    (applyOk : Bool) (applied : Res) : Option Res × RunResult Unit :=
  match yamlRes with
  | .error e => (current, .err e)
  | .ok _ =>
    if applyOk then (some applied, .ok ())
    else (current, .panicked "Resource could not be applied")

/-- `Drop for TestCluster` from `src/operator/setup.rs`.  `self.cluster.take()`
clears the field to `None` immediately; when it held a resource,
`TestKubeClient::delete` is called (panicking on a delete failure), then
`wait_for_pods_terminated` runs and its error, if any, is passed to
`TestCluster::log` — which only formats a string that the destructor
discards, so no `println` action is emitted for it.  The returned triple is
(outcome of the destructor, final value of the `cluster` field, emitted
actions). -/
def tcDrop (kind instName : String) (cluster : Option Res)
    (deleteTimeout : Nat) (deleteRes : DeleteApiRes) (deleteEvents : List (WEvent Res))
    (termTimeout : Nat) (polls : Nat → List Pod) :
    RunResult Unit × Option Res × List Action :=
  match cluster with
  | none => (.ok (), none, [])
  | some c =>
    match tkDelete c deleteTimeout deleteRes deleteEvents with
    | (.panicked msg, deleteTrace) => (.panicked msg, none, deleteTrace)
    | (_, deleteTrace) =>
      let waited := waitForPodsTerminated kind instName termTimeout polls
      (.ok (), none, deleteTrace ++ waited.2)

/-- `TemporaryResource::new` from `src/test/temporary_resource.rs`:
`TestKubeClient::create` (which panics on an erroneous result) followed by
storing the created resource.  Returns `none` when the create panicked (no
wrapper value exists then), otherwise the held resource and the emitted
actions. -/
def tempNew (spec : Res) (createTimeout : Nat) (createRes : Except String Unit)
    (events : List (WEvent Res)) : Option (Res × List Action) :=
  match createOp spec createTimeout createRes events with
  | (.ok created, trace) => some (created, trace)
  | (.error _, _) => none

/-- `Drop for TemporaryResource`: `mem::take` the held resource and call
`TestKubeClient::delete` on it (which panics on a delete failure). -/
def tempDrop (held : Res) (deleteTimeout : Nat) (deleteRes : DeleteApiRes)
    (events : List (WEvent Res)) : RunResult Unit × List Action :=
  tkDelete held deleteTimeout deleteRes events

/-- How a lexical scope holding a `TemporaryResource` is exited. -/
inductive ExitKind where
  | normal
  | unwound
  deriving DecidableEq, Repr

/-- The action trace of constructing a `TemporaryResource` and immediately
discarding it.  Rust runs `Drop` exactly once on every scope exit — normal
return and unwinding alike — so the trace does not depend on `exit`; this
encodes the language guarantee the wrapper relies on. -/
def tempLifecycleTrace (held : Res) (newTrace : List Action) (exit : ExitKind)
    (deleteTimeout : Nat) (deleteRes : DeleteApiRes)
    (deleteEvents : List (WEvent Res)) : List Action :=
  match exit with
  | .normal => newTrace ++ (tempDrop held deleteTimeout deleteRes deleteEvents).2
  | .unwound => newTrace ++ (tempDrop held deleteTimeout deleteRes deleteEvents).2

/-- Number of delete calls issued for the resource of the given name in a
trace. -/
def countDeletes (name : String) (trace : List Action) : Nat :=
  trace.countP (fun a => a = Action.deleteRes name)

/-- Naive substring test on character lists (is `sub` a contiguous
subsequence of `s`). -/
def containsSub (sub s : List Char) : Bool :=
  (List.range (s.length + 1)).any (fun i => (s.drop i).take sub.length == sub)


/-- A pod with no status: its conditions list is empty, so no condition is
ever reported true — a pod whose readiness never arrives. -/
def stuckPod : Pod := { name := "pod-0", status := none }

end ITC


namespace ITC


/-- The termination-wait loop succeeds exactly when some reachable poll returns an empty pod list. -/
theorem waitTermAux_ok_iff (k n : String) (T : Nat) (polls : Nat → List Pod) :
    ∀ (r i : Nat), (waitTermAux k n T polls r i).1 = .ok () ↔
      ∃ j, i ≤ j ∧ j - i < r ∧ polls j = [] := by
  intro r
  induction r with
  | zero =>
    intro i
    simp only [waitTermAux]
    constructor
    · intro h; exact absurd h (by simp)
    · rintro ⟨j, hij, hlt, _⟩; omega
  | succ r ih =>
    intro i
    simp only [waitTermAux]
    by_cases hempty : (polls i).isEmpty
    · simp only [hempty, if_pos]
      constructor
      · intro _; exact ⟨i, le_refl i, by omega, List.isEmpty_iff.mp hempty⟩
      · intro _; trivial
    · simp only [hempty, if_neg, Bool.false_eq_true, not_false_iff]
      rw [ih (i + 1)]
      constructor
      · rintro ⟨j, hij, hlt, he⟩; exact ⟨j, by omega, by omega, he⟩
      · rintro ⟨j, hij, hlt, he⟩
        rcases Nat.eq_or_lt_of_le hij with rfl | h
        · exact absurd (List.isEmpty_iff.mpr he) hempty
        · exact ⟨j, by omega, by omega, he⟩

/-- The termination-wait loop returns the timeout error when every reachable poll returns a non-empty pod list. -/
theorem waitTermAux_err (k n : String) (T : Nat) (polls : Nat → List Pod) :
    ∀ (r i : Nat), (∀ j, i ≤ j → j - i < r → polls j ≠ []) →
      (waitTermAux k n T polls r i).1 = .err (termTimeoutMsg k n T) := by
  intro r
  induction r with
  | zero => intro i _; rfl
  | succ r ih =>
    intro i h
    simp only [waitTermAux]
    have hne : ¬ (polls i).isEmpty := by
      simp only [List.isEmpty_iff]
      exact h i (le_refl i) (by omega)
    simp only [hne, if_neg, Bool.false_eq_true, not_false_iff]
    exact ih (i + 1) (fun j hij hlt => h j (by omega) (by omega))

/-- The event scan finds a resource exactly when some `Modified` event in the stream satisfies the predicate. -/
theorem scanModified_isSome_iff {K : Type} (pred : K → Bool) (l : List (WEvent K)) :
    (scanModified pred l).isSome ↔ ∃ k, WEvent.modified k ∈ l ∧ pred k = true := by
  induction l with
  | nil => simp [scanModified]
  | cons ev rest ih =>
    cases ev with
    | modified k =>
      by_cases hp : pred k
      · simp [scanModified, hp]
      · simp [scanModified, hp, ih]
    | added k => simp [scanModified, ih]
    | deleted k => simp [scanModified, ih]
    | bookmark => simp [scanModified, ih]

/-- When the j-th poll is the first to report the expected pod count and it is reached before the deadline, the ready-wait loop hands that poll to the per-pod verification. -/
theorem waitReadyAux_match (k n : String) (T e : Nat) (polls : Nat → List Pod)
    (vT : Nat) (sOf : Pod → Except String Pod) (eOf : Pod → List (WEvent Pod)) :
    ∀ (d i r : Nat), 2 * d < r → (polls (i + d)).length = e →
      (∀ l, i ≤ l → l < i + d → (polls l).length ≠ e) →
      waitReadyAux k n T e polls vT sOf eOf r i =
        runVerifyPods vT sOf eOf (polls (i + d)) := by
  intro d
  induction d with
  | zero =>
    intro i r hr hm _
    cases r with
    | zero => omega
    | succ rem =>
      rw [waitReadyAux.eq_def]
      simp only
      simp only [Nat.add_zero] at hm
      rw [if_neg (by simp [hm])]
      simp
  | succ d ih =>
    intro i r hr hm hprev
    cases r with
    | zero => omega
    | succ rem =>
      rw [waitReadyAux.eq_def]
      simp only
      rw [if_pos (hprev i (le_refl i) (by omega))]
      cases rem with
      | zero => omega
      | succ rem' =>
        simp only
        have hm' : (polls (i + 1 + d)).length = e := by
          have h1 : i + 1 + d = i + (d + 1) := by omega
          rw [h1]; exact hm
        have hprev' : ∀ l, i + 1 ≤ l → l < i + 1 + d → (polls l).length ≠ e := by
          intro l hl hl'
          exact hprev l (by omega) (by omega)
        have h2 : i + (d + 1) = i + 1 + d := by omega
        rw [h2]
        exact ih (i + 1) rem' (by omega) hm' hprev'

/-- When no reachable poll reports the expected pod count, the ready-wait loop returns the timeout error. -/
theorem waitReadyAux_err (k n : String) (T e : Nat) (polls : Nat → List Pod)
    (vT : Nat) (sOf : Pod → Except String Pod) (eOf : Pod → List (WEvent Pod)) :
    ∀ (r i : Nat), (∀ j, i ≤ j → 2 * (j - i) < r → (polls j).length ≠ e) →
      waitReadyAux k n T e polls vT sOf eOf r i =
        .err (readyTimeoutMsg k n T) := by
  intro r
  induction r using Nat.strong_induction_on with
  | _ r ih =>
    intro i h
    cases r with
    | zero => rfl
    | succ rem =>
      rw [waitReadyAux.eq_def]
      simp only
      rw [if_pos (h i (le_refl i) (by omega))]
      cases rem with
      | zero => rfl
      | succ rem' =>
        exact ih rem' (by omega) (i + 1) (fun j hj hj' => h j (by omega) (by omega))

/-- The per-pod verification loop succeeds exactly when every listed pod passes its readiness verification. -/
theorem runVerifyPods_ok_iff (vT : Nat) (sOf : Pod → Except String Pod)
    (eOf : Pod → List (WEvent Pod)) (pods : List Pod) :
    runVerifyPods vT sOf eOf pods = .ok () ↔
      ∀ p ∈ pods, (verifyPodCondition vT "Ready" (sOf p) (eOf p)).isOk := by
  induction pods with
  | nil => simp [runVerifyPods]
  | cons p rest ih =>
    simp only [runVerifyPods]
    cases hv : verifyPodCondition vT "Ready" (sOf p) (eOf p) with
    | ok q =>
      simp only [tkVerifyPodCondition, hv]
      rw [ih]
      constructor
      · intro hall q hq
        rcases List.mem_cons.mp hq with rfl | hq'
        · simp [hv, Except.isOk, Except.toBool]
        · exact hall q hq'
      · intro hall q hq
        exact hall q (List.mem_cons_of_mem p hq)
    | error msg =>
      simp only [tkVerifyPodCondition, hv]
      constructor
      · intro hcontra; exact absurd hcontra (by simp)
      · intro hall
        have := hall p (List.mem_cons_self p rest)
        rw [hv] at this
        simp [Except.isOk, Except.toBool] at this

/-- The per-pod verification loop either succeeds or panics with the fixed `expect` message of `TestKubeClient::verify_pod_condition`; it never returns an error value. -/
theorem runVerifyPods_ok_or_panicked (vT : Nat) (sOf : Pod → Except String Pod)
    (eOf : Pod → List (WEvent Pod)) (pods : List Pod) :
    runVerifyPods vT sOf eOf pods = .ok () ∨
      runVerifyPods vT sOf eOf pods = .panicked "Pod condition could not be verified" := by
  induction pods with
  | nil => exact Or.inl rfl
  | cons p rest ih =>
    simp only [runVerifyPods]
    cases hv : verifyPodCondition vT "Ready" (sOf p) (eOf p) with
    | ok q => simpa [tkVerifyPodCondition, hv] using ih
    | error msg => simp [tkVerifyPodCondition, hv]

/-- `TestCluster::log` only prepends a prefix, so equal log lines for the same cluster have equal payloads. -/
theorem logMsg_inj (k n a b : String) (h : logMsg k n a = logMsg k n b) : a = b := by
  rw [logMsg, logMsg] at h
  have hd := congrArg String.data h
  simp only [String.data_append] at hd
  have hd' := List.append_cancel_left hd
  cases a with
  | mk da =>
    cases b with
    | mk db => exact congrArg String.mk hd'

/-- A per-iteration waiting message is never equal to the termination timeout message (they start with different words after the log prefix). -/
theorem termWaitingMsg_ne_termTimeoutMsg (k n : String) (c T : Nat) :
    termWaitingMsg k n c ≠ termTimeoutMsg k n T := by
  intro h
  have hmsg := logMsg_inj k n _ _ h
  have hd := congrArg (fun s => s.data.head?) hmsg
  simp only at hd
  have hl : (("Waiting for " ++ Nat.repr c ++ " Pod(s) to terminate").data).head? =
      some 'W' := rfl
  have hr : (("Pods did not terminate within the specified timeout of " ++
      Nat.repr T ++ " second(s)").data).head? = some 'P' := rfl
  rw [hl, hr] at hd
  exact absurd hd (by decide)

/-- Every console line printed by the termination-wait loop is one of the per-iteration waiting messages. -/
theorem waitTermAux_println (k n : String) (T : Nat) (polls : Nat → List Pod) :
    ∀ (r i : Nat) (m : String),
      Action.println m ∈ (waitTermAux k n T polls r i).2 →
      ∃ c, m = termWaitingMsg k n c := by
  intro r
  induction r with
  | zero => intro i m hm; exact absurd hm (List.not_mem_nil _)
  | succ r ih =>
    intro i m hm
    simp only [waitTermAux] at hm
    by_cases hempty : (polls i).isEmpty
    · simp [hempty] at hm
    · simp only [hempty, if_neg, Bool.false_eq_true, not_false_iff] at hm
      rcases List.mem_cons.mp hm with heq | hm'
      · exact ⟨(polls i).length, by injection heq⟩
      · exact ih (i + 1) m hm'

/-- `TestKubeClient::delete` always emits exactly the watch-then-delete action pair, whatever the outcome. -/
theorem tkDelete_trace (c : Res) (dT : Nat) (dr : DeleteApiRes)
    (dev : List (WEvent Res)) :
    (tkDelete c dT dr dev).2 =
      [Action.watch ("metadata.name=" ++ c.name), Action.deleteRes c.name] := by
  simp only [tkDelete, deleteOp]
  cases dr with
  | apiError e => rfl
  | completedImmediately => rfl
  | inProgress => by_cases h : scanDeleted dev <;> simp [h]

/-- Claim C1, counterexample: the claim states that when the pod count is
right but readiness never arrives, `wait_ready` returns a timeout failure
(not a panic).  On the code it panics: with one expected pod, every poll
returning exactly one pod whose `"Ready"` condition never becomes true
(empty watch stream, fetched status without the condition),
`TestKubeClient::verify_pod_condition` hits its
`expect("Pod condition could not be verified")` and `wait_ready` panics
instead of returning a timeout error. -/
theorem wait_ready_counterexample :
    ((fun _ => [stuckPod]) 0 : List Pod).length = 1 ∧
    podConditionTrue "Ready" stuckPod = false ∧
    waitReady "K" "inst" 10 1 (fun _ => [stuckPod]) 30 (fun p => .ok p) (fun _ => []) =
      .panicked "Pod condition could not be verified" := by
  decide

/-- Claim C1 (amended): `wait_ready(n)` polls every two seconds until the
`cluster_ready` deadline.  It returns success iff the first poll before the
deadline that observes exactly `n` pods has every one of those pods confirm
its `"Ready"` condition via the client; if some pod of that first matching
poll fails its readiness verification, the client wrapper panics (it does
not return a timeout failure); if no poll before the deadline observes
exactly `n` pods, it returns the timeout failure. -/
theorem wait_ready_amended (k n : String) (T e vT : Nat)
    (polls : Nat → List Pod) (sOf : Pod → Except String Pod)
    (eOf : Pod → List (WEvent Pod)) :
    (waitReady k n T e polls vT sOf eOf = .ok () ↔
      ∃ j, 2 * j < T ∧ (polls j).length = e ∧
        (∀ l < j, (polls l).length ≠ e) ∧
        ∀ p ∈ polls j, (verifyPodCondition vT "Ready" (sOf p) (eOf p)).isOk) ∧
    (∀ j, 2 * j < T → (polls j).length = e → (∀ l < j, (polls l).length ≠ e) →
      (∃ p ∈ polls j, ¬ (verifyPodCondition vT "Ready" (sOf p) (eOf p)).isOk) →
      waitReady k n T e polls vT sOf eOf =
        .panicked "Pod condition could not be verified") ∧
    ((∀ j, 2 * j < T → (polls j).length ≠ e) →
      waitReady k n T e polls vT sOf eOf = .err (readyTimeoutMsg k n T)) := by
  classical
  have hmatch : ∀ j, 2 * j < T → (polls j).length = e →
      (∀ l < j, (polls l).length ≠ e) →
      waitReady k n T e polls vT sOf eOf = runVerifyPods vT sOf eOf (polls j) := by
    intro j hj hm hf
    have h0 : (polls (0 + j)).length = e := by simpa using hm
    have hprev : ∀ l, 0 ≤ l → l < 0 + j → (polls l).length ≠ e := by
      intro l _ hl; exact hf l (by omega)
    have hthis := waitReadyAux_match k n T e polls vT sOf eOf j 0 T hj h0 hprev
    rw [Nat.zero_add] at hthis
    rw [waitReady]
    exact hthis
  have herr : (∀ j, 2 * j < T → (polls j).length ≠ e) →
      waitReady k n T e polls vT sOf eOf = .err (readyTimeoutMsg k n T) := by
    intro h
    rw [waitReady]
    exact waitReadyAux_err k n T e polls vT sOf eOf T 0
      (fun j hj hj' => h j (by omega))
  refine ⟨?_, ?_, herr⟩
  · constructor
    · intro hok
      by_cases hex : ∃ j, 2 * j < T ∧ (polls j).length = e
      · have hspec := Nat.find_spec hex
        have hf : ∀ l < Nat.find hex, (polls l).length ≠ e := by
          intro l hl hcon
          exact Nat.find_min hex hl ⟨by omega, hcon⟩
        rw [hmatch (Nat.find hex) hspec.1 hspec.2 hf] at hok
        exact ⟨Nat.find hex, hspec.1, hspec.2, hf,
          (runVerifyPods_ok_iff vT sOf eOf (polls (Nat.find hex))).mp hok⟩
      · push_neg at hex
        rw [herr (fun j hj => hex j hj)] at hok
        exact absurd hok (by simp)
    · rintro ⟨j, hj, hm, hf, hall⟩
      rw [hmatch j hj hm hf]
      exact (runVerifyPods_ok_iff vT sOf eOf (polls j)).mpr hall
  · rintro j hj hm hf ⟨p, hp, hnv⟩
    rw [hmatch j hj hm hf]
    rcases runVerifyPods_ok_or_panicked vT sOf eOf (polls j) with hok | hpan
    · exfalso
      exact hnv ((runVerifyPods_ok_iff vT sOf eOf (polls j)).mp hok p hp)
    · exact hpan

/-- Witness for the amended C1 theorem: a run whose polls never reach the expected count returns the timeout error. -/
theorem wait_ready_amended_witness :
    waitReady "K" "inst" 10 3 (fun _ => []) 30 (fun p => .ok p) (fun _ => []) =
      .err (readyTimeoutMsg "K" "inst" 10) :=
  (wait_ready_amended "K" "inst" 10 3 30 (fun _ => []) (fun p => .ok p)
    (fun _ => [])).2.2 (fun j _ => by decide)

/-- Claim C2: for every base name and every generated suffix (the decimal
rendering of a `u32`, hence 1 to 10 characters), the instance name produced
by `TestClusterOptions::new` is the base name (truncated when necessary), a
hyphen, and the suffix; its total length never exceeds 63 characters;
truncation shortens only the base name (the adapted name is a prefix of the
base name) and never removes the suffix (the suffix is a suffix of the
result). -/
theorem instance_name_spec (base uid : String)
    (h1 : 1 ≤ uid.length) (h2 : uid.length ≤ 10) :
    (instanceName base uid).length ≤ 63 ∧
    instanceName base uid = adaptedName base uid ++ "-" ++ uid ∧
    (adaptedName base uid).data <+: base.data ∧
    uid.data <:+ (instanceName base uid).data := by
  have hmax : maxLenFor uid = 62 - uid.length := by
    simp [maxLenFor, MAX_INSTANCE_NAME_LEN]; omega
  refine ⟨?_, rfl, ?_, ?_⟩
  · rw [instanceName, String.length_append, String.length_append]
    have hdash : ("-" : String).length = 1 := rfl
    rw [hdash, adaptedName]
    split
    · rename_i hgt
      have htake : (String.mk (base.data.take (maxLenFor uid - 1))).length =
          min (maxLenFor uid - 1) base.length := by
        show (base.data.take _).length = _
        rw [List.length_take]
        rfl
      rw [htake, hmax]
      omega
    · rename_i hle
      rw [hmax] at hle
      omega
  · rw [adaptedName]
    split
    · exact List.take_prefix _ _
    · exact List.prefix_refl _
  · rw [instanceName, String.data_append]
    exact List.suffix_append _ _

/-- Witness for C2: a 69-character base name with a 10-character suffix yields a name within the 63-character bound. -/
theorem instance_name_spec_witness :
    (instanceName "a-very-long-application-instance-base-name-that-goes-on-and-on-and-on" "1234567890").length ≤ 63 :=
  (instance_name_spec _ "1234567890" (by decide) (by decide)).1

/-- Claim C3: `wait_for_pods_terminated` returns success exactly when some
poll before the `pods_terminated` deadline observes an empty label-selected
pod list (so it never succeeds while any matching pod remains, terminating
or not); it returns the timeout error when every poll observes a remaining
pod; and whenever the pod list is empty at the first poll (and the deadline
allows a first poll) it returns success. -/
theorem wait_for_pods_terminated_spec (k n : String) (T : Nat) (polls : Nat → List Pod) :
    ((waitForPodsTerminated k n T polls).1 = .ok () ↔ ∃ i < T, polls i = []) ∧
    ((∀ i < T, polls i ≠ []) →
      (waitForPodsTerminated k n T polls).1 = .err (termTimeoutMsg k n T)) ∧
    (0 < T → polls 0 = [] → (waitForPodsTerminated k n T polls).1 = .ok ()) := by
  refine ⟨?_, ?_, ?_⟩
  · rw [waitForPodsTerminated, waitTermAux_ok_iff]
    constructor
    · rintro ⟨j, _, hlt, he⟩; exact ⟨j, by omega, he⟩
    · rintro ⟨j, hlt, he⟩; exact ⟨j, by omega, by omega, he⟩
  · intro h
    exact waitTermAux_err k n T polls T 0 (fun j _ hlt => h j (by omega))
  · intro hT h0
    rw [waitForPodsTerminated, waitTermAux_ok_iff]
    exact ⟨0, le_refl 0, by omega, h0⟩

/-- Witness for C3: an empty pod list at the first poll returns success. -/
theorem wait_for_pods_terminated_spec_witness :
    (waitForPodsTerminated "K" "inst" 3 (fun _ => [])).1 = .ok () :=
  (wait_for_pods_terminated_spec "K" "inst" 3 (fun _ => [])).2.2 (by decide) rfl

/-- Claim C4: after a successful server-side apply, `apply_crd` returns
success iff the CRD is already gettable (short-circuit) or a `Modified`
watch event delivered before the apply-CRD timeout shows the
`"NamesAccepted"` condition true; otherwise it fails with the timeout
error; and when the CRD is gettable the result is independent of the watch
stream — success is returned without waiting for the condition. -/
theorem apply_crd_spec (c : CRD) (T : Nat) (go : Bool) (ev : List (WEvent CRD)) :
    ((applyCrd c T (.ok ()) go ev).1 = .ok () ↔
      (go = true ∨ ∃ k, WEvent.modified k ∈ ev ∧ crdNamesAccepted k = true)) ∧
    (go = false → (∀ k, WEvent.modified k ∈ ev → crdNamesAccepted k = false) →
      (applyCrd c T (.ok ()) go ev).1 =
        .error ("Custom resource definition [" ++ c.name ++
          "] could not be applied within " ++ Nat.repr T ++ " seconds.")) ∧
    (go = true → ∀ ev', applyCrd c T (.ok ()) go ev = applyCrd c T (.ok ()) go ev') := by
  refine ⟨?_, ?_, ?_⟩
  · cases go with
    | true => simp [applyCrd]
    | false =>
      simp only [applyCrd, Bool.false_eq_true, if_false, false_or]
      rw [← scanModified_isSome_iff crdNamesAccepted ev]
      cases hs : scanCrdReady ev with
      | none =>
        simp [scanCrdReady] at hs
        simp [hs, Option.isSome]
      | some k =>
        simp [scanCrdReady] at hs
        simp [hs, Option.isSome]
  · intro hgo hnone
    subst hgo
    have hs : scanCrdReady ev = none := by
      cases hs : scanCrdReady ev with
      | none => rfl
      | some k =>
        exfalso
        have : (scanModified crdNamesAccepted ev).isSome := by
          rw [scanCrdReady] at hs; simp [hs]
        rw [scanModified_isSome_iff] at this
        obtain ⟨k', hmem, hk'⟩ := this
        have := hnone k' hmem
        simp [this] at hk'
    simp [applyCrd, hs]
  · intro hgo ev'
    subst hgo
    simp [applyCrd]

/-- Witness for C4: not gettable and no events before the timeout yields the timeout error. -/
theorem apply_crd_spec_witness :
    (applyCrd { name := "crd", status := none } 30 (.ok ()) false []).1 =
      .error "Custom resource definition [crd] could not be applied within 30 seconds." :=
  (apply_crd_spec { name := "crd", status := none } 30 false []).2.1 rfl
    (fun k hk => absurd hk (List.not_mem_nil (WEvent.modified k)))

/-- Claim C5: in every blocking client operation that waits for a change —
`create` (waiting for `Added`), `delete` (waiting for `Deleted`) and
`apply_crd` (waiting for the accepted condition) — the action trace begins
with the watch establishment on the resource's name, strictly before the
mutating API call, for every environment. -/
theorem watch_established_before_mutation :
    (∀ (r : Res) (T : Nat) (cr : Except String Unit) (ev : List (WEvent Res)),
      ∃ rest, (createOp r T cr ev).2 =
        Action.watch ("metadata.name=" ++ r.name) :: Action.createRes r.name :: rest) ∧
    (∀ (r : Res) (T : Nat) (dr : DeleteApiRes) (ev : List (WEvent Res)),
      ∃ rest, (deleteOp r T dr ev).2 =
        Action.watch ("metadata.name=" ++ r.name) :: Action.deleteRes r.name :: rest) ∧
    (∀ (c : CRD) (T : Nat) (pr : Except String Unit) (go : Bool) (ev : List (WEvent CRD)),
      ∃ rest, (applyCrd c T pr go ev).2 =
        Action.watch ("metadata.name=" ++ c.name) :: Action.patchApply c.name :: rest) := by
  refine ⟨?_, ?_, ?_⟩
  · intro r T cr ev
    refine ⟨[], ?_⟩
    cases cr with
    | error e => rfl
    | ok u =>
      cases u
      simp only [createOp]
      cases scanAdded ev <;> rfl
  · intro r T dr ev
    refine ⟨[], ?_⟩
    cases dr with
    | apiError e => rfl
    | completedImmediately => rfl
    | inProgress =>
      simp only [deleteOp]
      by_cases h : scanDeleted ev <;> simp [h]
  · intro c T pr go ev
    cases pr with
    | error e => exact ⟨[], rfl⟩
    | ok u =>
      cases u
      refine ⟨[Action.getResource c.name], ?_⟩
      simp only [applyCrd]
      cases go with
      | true => rfl
      | false => cases scanCrdReady ev <;> rfl

/-- Claim C6: constructing a `TemporaryResource` (a successful blocking
create) and then discarding it results in exactly one delete call for the
held resource in the whole lifecycle trace, whether the scope exits
normally or by unwinding (Rust runs `Drop` exactly once on either exit
path); the construction itself issues no delete. -/
theorem temporary_resource_single_delete (spec : Res) (cT : Nat)
    (cr : Except String Unit) (ev : List (WEvent Res)) (held : Res)
    (ntr : List Action) (exit : ExitKind) (dT : Nat) (dr : DeleteApiRes)
    (dev : List (WEvent Res))
    (hnew : tempNew spec cT cr ev = some (held, ntr)) :
    countDeletes held.name (tempLifecycleTrace held ntr exit dT dr dev) = 1 ∧
    countDeletes held.name ntr = 0 := by
  have htr : ntr = [Action.watch ("metadata.name=" ++ spec.name), Action.createRes spec.name] := by
    cases cr with
    | error e => simp [tempNew, createOp] at hnew
    | ok u =>
      cases u
      cases hs : scanAdded ev with
      | none => simp [tempNew, createOp, hs] at hnew
      | some added =>
        simp [tempNew, createOp, hs] at hnew
        exact hnew.2.symm
  have hdropTrace : (tempDrop held dT dr dev).2 =
      [Action.watch ("metadata.name=" ++ held.name), Action.deleteRes held.name] := by
    simp only [tempDrop, tkDelete, deleteOp]
    cases dr with
    | apiError e => rfl
    | completedImmediately => rfl
    | inProgress => by_cases h : scanDeleted dev <;> simp [h]
  have hcount0 : countDeletes held.name ntr = 0 := by
    rw [htr]
    simp [countDeletes]
  constructor
  · cases exit with
    | normal =>
      rw [tempLifecycleTrace, countDeletes, List.countP_append, hdropTrace]
      rw [countDeletes] at hcount0
      rw [hcount0]
      simp [countDeletes]
    | unwound =>
      rw [tempLifecycleTrace, countDeletes, List.countP_append, hdropTrace]
      rw [countDeletes] at hcount0
      rw [hcount0]
      simp [countDeletes]
  · exact hcount0

/-- Witness for C6: a concrete created-then-unwound lifecycle issues exactly one delete. -/
theorem temporary_resource_single_delete_witness :
    countDeletes "t" (tempLifecycleTrace { name := "t" }
      [Action.watch "metadata.name=t", Action.createRes "t"] ExitKind.unwound 10
      DeleteApiRes.completedImmediately []) = 1 :=
  (temporary_resource_single_delete { name := "t" } 10 (.ok ())
    [WEvent.added { name := "t" }] { name := "t" }
    [Action.watch "metadata.name=t", Action.createRes "t"] ExitKind.unwound 10
    DeleteApiRes.completedImmediately [] (by decide)).1

/-- Claim C7, counterexample: the claim states that a failure during
scope-exit cleanup is caught and logged, never re-raised.  On the code, a
failure of the delete call inside `Drop for TestCluster` panics (the
destructor calls the panicking `TestKubeClient::delete`), so that failure
propagates instead of being caught. -/
theorem drop_delete_failure_panics :
    (tcDrop "K" "inst" (some { name := "c" }) 10 (.apiError "server error") [] 3
      (fun _ => [])).1 = .panicked "Resource could not be deleted" := by
  decide

/-- Claim C7 (amended): during scope-exit cleanup, a failure of the delete
call panics out of the destructor of `TestCluster` (and likewise of
`TemporaryResource`) — it is not caught; only a failure of the
pod-termination wait is caught: the destructor still returns normally, but
the caught error is not reported either — `TestCluster::log` merely formats
a string that the destructor discards, so no console line with the
termination timeout message is ever printed. -/
theorem cleanup_error_containment (k n : String) (c : Res) (dT : Nat)
    (dev : List (WEvent Res)) (tT : Nat) (polls : Nat → List Pod) :
    (∀ e, (tcDrop k n (some c) dT (.apiError e) dev tT polls).1 =
      .panicked "Resource could not be deleted") ∧
    (∀ e, (tempDrop c dT (.apiError e) dev).1 =
      .panicked "Resource could not be deleted") ∧
    (∀ dr, (tkDelete c dT dr dev).1 = .ok () →
      (tcDrop k n (some c) dT dr dev tT polls).1 = .ok () ∧
      Action.println (termTimeoutMsg k n tT) ∉
        (tcDrop k n (some c) dT dr dev tT polls).2.2) := by
  refine ⟨?_, ?_, ?_⟩
  · intro e; simp [tcDrop, tkDelete, deleteOp]
  · intro e; simp [tempDrop, tkDelete, deleteOp]
  · intro dr hok
    have hpair : tkDelete c dT dr dev = (.ok (), (tkDelete c dT dr dev).2) := by
      have := Prod.mk.eta (p := tkDelete c dT dr dev)
      rw [← this, hok]
    rw [tkDelete_trace] at hpair
    constructor
    · simp only [tcDrop, hpair]
    · simp only [tcDrop, hpair]
      intro hmem
      rcases List.mem_append.mp hmem with hdel | hwait
      · simp at hdel
      · obtain ⟨cnt, hcnt⟩ :=
          waitTermAux_println k n tT polls tT 0 (termTimeoutMsg k n tT) hwait
        exact termWaitingMsg_ne_termTimeoutMsg k n cnt tT hcnt.symm

/-- Witness for the amended C7 theorem: a successful delete makes the destructor return normally. -/
theorem cleanup_error_containment_witness :
    (tcDrop "K" "inst" (some { name := "c" }) 10 DeleteApiRes.completedImmediately [] 3
      (fun _ => [])).1 = .ok () :=
  ((cleanup_error_containment "K" "inst" { name := "c" } 10 [] 3 (fun _ => [])).2.2
    DeleteApiRes.completedImmediately (by decide)).1

/-- Claim C8, counterexample: the claim states the current-cluster field is
cleared to `None` only after the associated pods are confirmed terminated.
On the code, `Drop for TestCluster` clears the field via
`self.cluster.take()` before deleting and waiting: with polls that always
return a remaining pod, the termination wait times out — termination is
never confirmed — yet the field ends (and spends the whole cleanup) as
`None`. -/
theorem cluster_field_cleared_without_confirmation :
    (tcDrop "K" "inst" (some { name := "c" }) 10 DeleteApiRes.completedImmediately []
      3 (fun _ => [stuckPod])).2.1 = none ∧
    (waitForPodsTerminated "K" "inst" 3 (fun _ => [stuckPod])).1 =
      .err "[K/inst] Pods did not terminate within the specified timeout of 3 second(s)" := by
  decide

/-- Claim C8 (amended): the current-cluster field is `None` from
construction until `apply` succeeds — a serialization error or a panicking
client apply leaves it unchanged, a successful apply sets it to the applied
resource — and on scope exit the field is cleared to `None` unconditionally
at the start of cleanup (by `Option::take`), regardless of whether pod
termination is ever confirmed. -/
theorem cluster_field_lifecycle :
    tcNewCluster = none ∧
    (∀ (cur : Option Res) (e : String) (aok : Bool) (ap : Res),
      (tcApply cur (.error e) aok ap).1 = cur) ∧
    (∀ (cur : Option Res) (y : String) (ap : Res),
      (tcApply cur (.ok y) false ap).1 = cur) ∧
    (∀ (cur : Option Res) (y : String) (ap : Res),
      (tcApply cur (.ok y) true ap).1 = some ap) ∧
    (∀ (k n : String) (cl : Option Res) (dT : Nat) (dr : DeleteApiRes)
      (dev : List (WEvent Res)) (tT : Nat) (polls : Nat → List Pod),
      (tcDrop k n cl dT dr dev tT polls).2.1 = none) := by
  refine ⟨rfl, fun cur e aok ap => rfl, fun cur y ap => rfl, fun cur y ap => rfl, ?_⟩
  intro k n cl dT dr dev tT polls
  cases cl with
  | none => rfl
  | some c =>
    simp only [tcDrop]
    rcases htk : tkDelete c dT dr dev with ⟨fst, snd⟩
    cases fst <;> simp

/-- Claim C9, counterexample: the claim states the timeout error of
`wait_ready` includes the last known pod count.  On the code, with every
poll returning 7 pods while 3 are expected, `wait_ready` times out with a
message that contains the timeout duration but not the digit 7 — the last
observed count appears nowhere in it. -/
theorem timeout_message_counterexample :
    waitReady "K" "inst" 10 3 (fun _ => List.replicate 7 stuckPod) 30
      (fun p => .ok p) (fun _ => []) = .err (readyTimeoutMsg "K" "inst" 10) ∧
    (List.replicate 7 stuckPod).length = 7 ∧
    containsSub (Nat.repr 7).data (readyTimeoutMsg "K" "inst" 10).data = false := by
  decide

/-- Claim C9 (amended): the timeout errors of `wait_ready` and
`wait_for_pods_terminated` state what was being waited for and the timeout
duration, but not the last observed value: the message is a fixed format of
the cluster identity and the timeout alone, so two runs with different
observed pod lists produce the identical message. -/
theorem timeout_message_spec (k n : String) (T e vT : Nat)
    (sOf : Pod → Except String Pod) (eOf : Pod → List (WEvent Pod))
    (polls polls' : Nat → List Pod)
    (h : ∀ i, (polls i).length ≠ e) (h' : ∀ i, (polls' i).length ≠ e) :
    waitReady k n T e polls vT sOf eOf =
      .err (logMsg k n ("Cluster did not startup within the specified timeout of " ++
        Nat.repr T ++ " second(s)")) ∧
    waitReady k n T e polls vT sOf eOf = waitReady k n T e polls' vT sOf eOf ∧
    ∀ (tpolls : Nat → List Pod), (∀ i, tpolls i ≠ []) →
      (waitForPodsTerminated k n T tpolls).1 =
        .err (logMsg k n ("Pods did not terminate within the specified timeout of " ++
          Nat.repr T ++ " second(s)")) := by
  have e1 : waitReady k n T e polls vT sOf eOf = .err (readyTimeoutMsg k n T) :=
    waitReadyAux_err k n T e polls vT sOf eOf T 0 (fun j _ _ => h j)
  have e2 : waitReady k n T e polls' vT sOf eOf = .err (readyTimeoutMsg k n T) :=
    waitReadyAux_err k n T e polls' vT sOf eOf T 0 (fun j _ _ => h' j)
  refine ⟨e1, e1.trans e2.symm, ?_⟩
  intro tpolls ht
  exact waitTermAux_err k n T tpolls T 0 (fun j _ _ => ht j)

/-- Witness for the amended C9 theorem: the concrete timeout message of a run that never reaches the count. -/
theorem timeout_message_spec_witness :
    waitReady "K" "inst" 10 3 (fun _ => []) 30 (fun p => .ok p) (fun _ => []) =
      .err (logMsg "K" "inst"
        ("Cluster did not startup within the specified timeout of " ++
          Nat.repr 10 ++ " second(s)")) :=
  (timeout_message_spec "K" "inst" 10 3 30 (fun p => .ok p) (fun _ => [])
    (fun _ => ([] : List Pod)) (fun _ => ([] : List Pod))
    (fun i => by simp) (fun i => by simp)).1

/-- Claim C10: `find` and `find_namespaced` return `none` for every failing
lookup — absence (`notFound`) and any other API error alike — and `some`
exactly on success, so no error is surfaced and absence is
indistinguishable from lookup failure. -/
theorem find_swallows_errors :
    (∀ (K : Type) (e : ApiError), findRes (K := K) (.error e) = none) ∧
    (∀ (K : Type) (k : K), findRes (.ok k) = some k) ∧
    (∀ (K : Type) (ns : String) (e : ApiError),
      findNamespaced (K := K) ns (.error e) = none) ∧
    (∀ (K : Type) (ns : String) (k : K), findNamespaced ns (.ok k) = some k) ∧
    (∀ (K : Type) (r : Except ApiError K), findRes r = none ↔ ∃ e, r = .error e) ∧
    (∀ (K : Type) (ns : String) (e e' : ApiError),
      findNamespaced (K := K) ns (.error e) = findNamespaced ns (.error e')) := by
  refine ⟨fun K e => rfl, fun K k => rfl, fun K ns e => rfl, fun K ns k => rfl, ?_,
    fun K ns e e' => rfl⟩
  intro K r
  cases r with
  | ok k => simp [findRes]
  | error e => simp [findRes]

end ITC
